import Mathlib

/-!
Shallow embedding of `src/lib/migration-healer.py` (SpendCloud Migration Healer).

The Python program turns migration-run output into a list of `MigrationError`
records by applying two regular-expression dialects, groups the records per
database, applies a corruption heuristic, and renders suggestions.  The
definitions below translate that source faithfully:

* Python `re` matching of the two fixed patterns is embedded as deterministic
  scanners over `List Char`.  For these particular patterns backtracking is
  fully determined (each quantified subpattern is followed by a character its
  character class excludes), so `finditer` semantics reduce to: try a match at
  every position from left to right, and on success continue scanning after the
  match end.  The derivation is noted at each matcher.
* Character classes are embedded at ASCII fidelity: `\s` is the six ASCII
  whitespace characters and `IGNORECASE` is ASCII case folding.  The
  program's patterns are ASCII, where these agree with Python.  Python
  `str.isdigit` is Unicode-aware, and its full code-point table is embedded
  as `pyIsDigit` because the corruption heuristic's digit test depends on it.
* Python exceptions are embedded with `Except`: `_detect_corruption` indexes
  `table[0]`, which raises `IndexError` on an empty table name, so its
  embedding returns `Except Unit Bool`.
-/

set_option maxRecDepth 40000
set_option maxHeartbeats 4000000

/-- MigrationError mirrors the Python dataclass of the same name. -/
structure MigrationError where
  database : String
  table : String
  operation : String
  error_type : String
  raw_error : String
deriving DecidableEq

/-- quoteC is the ASCII apostrophe character (code 39). -/
def quoteC : Char := Char.ofNat 39

/-- escC is the ASCII escape character (code 27), starting ANSI sequences. -/
def escC : Char := Char.ofNat 27

/-- isPyWs embeds the regex class `\s` (ASCII part): space, tab, newline,
carriage return, vertical tab, form feed. -/
def isPyWs (c : Char) : Bool :=
  c = ' ' || c = '\t' || c = '\n' || c = '\r' || c = Char.ofNat 11 || c = Char.ofNat 12

/-- matchLitCI matches a literal (given in lower case) case-insensitively at
the head of the input, returning the rest of the input on success.  This
embeds a literal subpattern under `re.IGNORECASE` (ASCII folding). -/
def matchLitCI : List Char → List Char → Option (List Char)
  | [], u => some u
  | _ :: _, [] => none
  | l :: ls, c :: cs => if c.toLower = l then matchLitCI ls cs else none

/-- wsPlus embeds `\s+` followed by a non-whitespace-starting continuation:
it consumes a maximal non-empty whitespace run.  Greedy backtracking never
yields a shorter run in the source patterns because every `\s+` there is
followed by a character (quote or letter) that `\s` cannot match. -/
def wsPlus (u : List Char) : Option (List Char) :=
  match u with
  | c :: cs => if isPyWs c then some (cs.dropWhile isPyWs) else none
  | [] => none

/-- tableLit is the literal `table` of both patterns (lower case). -/
def tableLit : List Char := ['t', 'a', 'b', 'l', 'e']

/-- doesntLit is the literal of the word containing an apostrophe in the
patterns, lower case: d, o, e, s, n, apostrophe, t. -/
def doesntLit : List Char := ['d', 'o', 'e', 's', 'n'] ++ [quoteC] ++ ['t']

/-- existLit is the literal `exist` ending both patterns. -/
def existLit : List Char := ['e', 'x', 'i', 's', 't']

/-- sqlstateLit is the literal `SQLSTATE[42S02]` of the secondary pattern,
lower case. -/
def sqlstateLit : List Char :=
  ['s', 'q', 'l', 's', 't', 'a', 't', 'e', '[', '4', '2', 's', '0', '2', ']']

/-- splitLastDot splits a dot-free-quote region at its last dot that has a
non-empty remainder, returning (before, after).  This embeds the backtracking
of greedy `([^']+)\.` followed by lazy `([^']+?)'` inside a quote-delimited
region: the greedy first group retreats from the right, so the split lands on
the last dot whose remainder (the lazy second group) is non-empty; emptiness
of the first group is checked by the caller. -/
def splitLastDot : List Char → Option (List Char × List Char)
  | [] => none
  | c :: cs =>
    match splitLastDot cs with
    | some (a, b) => some (c :: a, b)
    | none => if c = '.' ∧ cs ≠ [] then some ([], cs) else none

/-- primaryMatchAt embeds an anchored attempt of the primary pattern
`Table\s+'([^']+)\.([^']+?)'\s+doesn't\s+exist` (IGNORECASE, MULTILINE,
DOTALL) at the head of `u`.  On success it returns the two captures and the
number of characters consumed.  The quantifier resolution is deterministic:
the quoted region is read up to the next quote, split by `splitLastDot`, and
each `\s+` is maximal (see `wsPlus`). -/
def primaryMatchAt (u : List Char) : Option (List Char × List Char × Nat) :=
  (matchLitCI tableLit u).bind fun u1 =>
  (wsPlus u1).bind fun u2 =>
  match u2 with
  | c :: u3 =>
    if c = quoteC then
      let r := u3.takeWhile (fun ch => ch ≠ quoteC)
      match u3.dropWhile (fun ch => ch ≠ quoteC) with
      | _ :: u5 =>
        (splitLastDot r).bind fun pr =>
        if pr.1.isEmpty then none
        else
          (wsPlus u5).bind fun u6 =>
          (matchLitCI doesntLit u6).bind fun u7 =>
          (wsPlus u7).bind fun u8 =>
          (matchLitCI existLit u8).bind fun u9 =>
          some (pr.1, pr.2, u.length - u9.length)
      | [] => none
    else none
  | [] => none

/-- PrimMatch records one primary-pattern match: the two captured substrings
and the absolute start and end offsets of the whole match. -/
structure PrimMatch where
  cap1 : List Char
  cap2 : List Char
  mstart : Nat
  mend : Nat
deriving DecidableEq

/-- primaryScan embeds `primary_pattern.finditer`: starting at offset `pos`
with remaining input `rem`, try the anchored match at every position from
left to right; on success emit the match and continue after its end.  Matches
of this pattern always consume at least one character, so `max k 1 = k`; the
`max` only serves fuel-independence.  `fuel` bounds the recursion and is
instantiated with more steps than positions. -/
def primaryScan : Nat → List Char → Nat → List PrimMatch
  | 0, _, _ => []
  | fuel + 1, rem, pos =>
    match primaryMatchAt rem with
    | some (c1, c2, k) =>
      ⟨c1, c2, pos, pos + k⟩ :: primaryScan fuel (rem.drop (max k 1)) (pos + max k 1)
    | none =>
      match rem with
      | [] => []
      | _ :: rs => primaryScan fuel rs (pos + 1)

/-- secClass1 embeds the class `[^'\s\.]` of the secondary pattern's first
capture. -/
def secClass1 (c : Char) : Bool := !(c = quoteC || c = '.' || isPyWs c)

/-- secClass2 embeds the class `[^'\s]` of the secondary pattern's second
capture. -/
def secClass2 (c : Char) : Bool := !(c = quoteC || isPyWs c)

/-- dropOptQuote embeds a greedy `'?`: consume one apostrophe when present.
In the secondary pattern both `'?` occurrences are followed by subpatterns
that cannot match an apostrophe, so declining the optional quote when it is
present can never succeed and the greedy choice is deterministic. -/
def dropOptQuote (u : List Char) : List Char :=
  match u with
  | c :: t => if c = quoteC then t else u
  | [] => u

/-- secondaryRestAt embeds the part of the secondary pattern after `.*?`,
namely `Table\s+'?([^'\s\.]+)\.([^'\s]+)'?\s+doesn't\s+exist`, anchored at
the head of `u`.  Both captures are maximal runs of their classes; the first
must be followed by a literal dot.  Returns captures and consumed length. -/
def secondaryRestAt (u : List Char) : Option (List Char × List Char × Nat) :=
  (matchLitCI tableLit u).bind fun u1 =>
  (wsPlus u1).bind fun u2 =>
  let u3 := dropOptQuote u2
  let c1 := u3.takeWhile secClass1
  match u3.dropWhile secClass1 with
  | '.' :: u4 =>
    if c1.isEmpty then none
    else
      let c2 := u4.takeWhile secClass2
      let u5 := u4.dropWhile secClass2
      if c2.isEmpty then none
      else
        let u6 := dropOptQuote u5
        (wsPlus u6).bind fun u7 =>
        (matchLitCI doesntLit u7).bind fun u8 =>
        (wsPlus u8).bind fun u9 =>
        (matchLitCI existLit u9).bind fun u10 =>
        some (c1, c2, u.length - u10.length)
  | _ => none

/-- secondaryTailScan embeds the lazy `.*?` (DOTALL) between the SQLSTATE tag
and the Table clause: it tries `secondaryRestAt` at the smallest possible
offset first, adding the skipped length to the consumed count. -/
def secondaryTailScan : List Char → Option (List Char × List Char × Nat)
  | [] => none
  | u@(_ :: us) =>
    match secondaryRestAt u with
    | some r => some r
    | none =>
      (secondaryTailScan us).map fun r => (r.1, r.2.1, r.2.2 + 1)

/-- SecMatch records one secondary-pattern match: the two captured substrings
and the absolute start and end offsets of the whole match. -/
structure SecMatch where
  cap1 : List Char
  cap2 : List Char
  mstart : Nat
  mend : Nat
deriving DecidableEq

/-- secondaryScan embeds `sqlstate_pattern.finditer`: at every position try
the tag `SQLSTATE[42S02]` (case-insensitively) followed by the lazy tail; on
success emit the match and continue after its end. -/
def secondaryScan : Nat → List Char → Nat → List SecMatch
  | 0, _, _ => []
  | fuel + 1, rem, pos =>
    match matchLitCI sqlstateLit rem with
    | some u1 =>
      match secondaryTailScan u1 with
      | some (c1, c2, k) =>
        let total := (rem.length - u1.length) + k
        ⟨c1, c2, pos, pos + total⟩ ::
          secondaryScan fuel (rem.drop (max total 1)) (pos + max total 1)
      | none =>
        match rem with
        | [] => []
        | _ :: rs => secondaryScan fuel rs (pos + 1)
    | none =>
      match rem with
      | [] => []
      | _ :: rs => secondaryScan fuel rs (pos + 1)

/-- isAnsiParam embeds the class `[0-9;]` of the ANSI-stripping pattern. -/
def isAnsiParam (c : Char) : Bool := c.isDigit || c = ';'

/-- stripAnsi embeds `re.sub(r'\x1b\[[0-9;]*m', '', output)`: each occurrence
of escape, `[`, a maximal run of digits or semicolons, then `m` is removed;
all other characters are kept.  The greedy `[0-9;]*` is deterministic because
`m` is not in the class.  `fuel` bounds the recursion (each step consumes at
least one character). -/
def stripAnsi : Nat → List Char → List Char
  | 0, l => l
  | _ + 1, [] => []
  | fuel + 1, c :: cs =>
    if c = escC then
      match cs with
      | b :: rest =>
        if b = '[' then
          match rest.dropWhile isAnsiParam with
          | m :: tail =>
            if m = 'm' then stripAnsi fuel tail else c :: stripAnsi fuel cs
          | [] => c :: stripAnsi fuel cs
        else c :: stripAnsi fuel cs
      | [] => [c]
    else c :: stripAnsi fuel cs

/-- stripAnsiAll applies `stripAnsi` with sufficient fuel. -/
def stripAnsiAll (l : List Char) : List Char := stripAnsi (l.length + 1) l

/-- collapseWs embeds `re.sub(r'\s+', '', x)`: every whitespace character is
removed (replacing each whitespace run by the empty string deletes exactly
the whitespace characters). -/
def collapseWs (l : List Char) : List Char := l.filter (fun c => !isPyWs c)

/-- pyStrip embeds Python `str.strip()`: remove leading and trailing
whitespace. -/
def pyStrip (l : List Char) : List Char :=
  ((l.dropWhile isPyWs).reverse.dropWhile isPyWs).reverse

/-- pySlice embeds the Python slice `l[a:b]` for natural bounds (out-of-range
bounds clamp, an empty slice results when `b ≤ a`). -/
def pySlice (l : List Char) (a b : Nat) : List Char := (l.take b).drop a

/-- phraseAt embeds an anchored attempt of `w1\s+w2` (IGNORECASE) at the head
of `u`; in the source `w2` starts with a letter, so the greedy `\s+` is
deterministic. -/
def phraseAt (w1 w2 : List Char) (u : List Char) : Bool :=
  match matchLitCI w1 u with
  | some u1 =>
    match wsPlus u1 with
    | some u2 => (matchLitCI w2 u2).isSome
    | none => false
  | none => false

/-- containsPhrase embeds `re.search(r'w1\s+w2', ctx, re.IGNORECASE)
is not None`: an anchored attempt at every position. -/
def containsPhrase (w1 w2 : List Char) : List Char → Bool
  | [] => false
  | c :: cs => phraseAt w1 w2 (c :: cs) || containsPhrase w1 w2 cs

/-- alterLit is the literal `alter`. -/
def alterLit : List Char := ['a', 'l', 't', 'e', 'r']

/-- createLit is the literal `create`. -/
def createLit : List Char := ['c', 'r', 'e', 'a', 't', 'e']

/-- dropLit is the literal `drop`. -/
def dropLit : List Char := ['d', 'r', 'o', 'p']

/-- mkPrimRecord embeds the construction of one `MigrationError` from a
primary match: whitespace is collapsed out of both captures, the operation is
inferred from the context slice `output[max(0, start - 200) : end + 100]`
(Python `max(0, start - 200)` coincides with truncated subtraction on `Nat`),
and the raw error is the whole matched substring. -/
def mkPrimRecord (out : List Char) (m : PrimMatch) : MigrationError :=
  let context := pySlice out (m.mstart - 200) (m.mend + 100)
  { database := ⟨collapseWs m.cap1⟩
    table := ⟨collapseWs m.cap2⟩
    operation :=
      if containsPhrase alterLit tableLit context then "ALTER"
      else if containsPhrase createLit tableLit context then "CREATE"
      else if containsPhrase dropLit tableLit context then "DROP"
      else "UNKNOWN"
    error_type := "MISSING_TABLE"
    raw_error := ⟨pySlice out m.mstart m.mend⟩ }

/-- mkSecRecord embeds the construction of one `MigrationError` from a
secondary match: captures are stripped, the operation is `UNKNOWN`, and the
raw error is the matched substring truncated to 150 characters. -/
def mkSecRecord (out : List Char) (m : SecMatch) : MigrationError :=
  { database := ⟨pyStrip m.cap1⟩
    table := ⟨pyStrip m.cap2⟩
    operation := "UNKNOWN"
    error_type := "MISSING_TABLE"
    raw_error := ⟨(pySlice out m.mstart m.mend).take 150⟩ }

/-- secKey is the deduplication identity of a secondary match, the stripped
(database, table) pair. -/
def secKey (m : SecMatch) : String × String := (⟨pyStrip m.cap1⟩, ⟨pyStrip m.cap2⟩)

/-- addSecondary embeds the secondary loop of `parse_migration_output`: each
secondary match whose (database, table) pair is not in `seen` is appended and
its pair added to `seen`. -/
def addSecondary (out : List Char) : List (String × String) → List SecMatch →
    List MigrationError
  | _, [] => []
  | seen, m :: ms =>
    if secKey m ∈ seen then addSecondary out seen ms
    else mkSecRecord out m :: addSecondary out (secKey m :: seen) ms

/-- parse_migration_output embeds `MigrationHealer.parse_migration_output`:
strip ANSI sequences, collect primary-pattern records in document order, then
append secondary-pattern records whose pair was not already seen. -/
def parse_migration_output (output : String) : List MigrationError :=
  let out := stripAnsiAll output.data
  let prim := (primaryScan (out.length + 1) out 0).map (mkPrimRecord out)
  let seen := prim.map (fun e => (e.database, e.table))
  prim ++ addSecondary out seen (secondaryScan (out.length + 1) out 0)

/-- lexLe is code-point lexicographic comparison of character lists, the
order Python `sorted` uses on strings.  It is written as a plain structural
recursion so that it evaluates inside the kernel. -/
def lexLe : List Char → List Char → Bool
  | [], _ => true
  | _ :: _, [] => false
  | a :: as, b :: bs =>
    if a.toNat < b.toNat then true
    else if b.toNat < a.toNat then false
    else lexLe as bs

/-- strLe is the string order induced by `lexLe`; Python compares strings by
code points exactly this way. -/
def strLe (a b : String) : Prop := lexLe a.data b.data = true

instance : DecidableRel strLe :=
  fun a b => inferInstanceAs (Decidable (lexLe a.data b.data = true))

/-- addTable embeds one step of the `defaultdict(set)` accumulation of
`analyze_dependencies`: the set per database is modelled as the list of its
distinct members in insertion order (afterwards the source sorts it, so the
internal order is unobservable). -/
def addTable : List (String × List String) → String → String →
    List (String × List String)
  | [], db, t => [(db, [t])]
  | (d, ts) :: rest, db, t =>
    if d = db then (d, if t ∈ ts then ts else ts ++ [t]) :: rest
    else (d, ts) :: addTable rest db t

/-- analyze_dependencies embeds `MigrationHealer.analyze_dependencies`: group
the distinct table names per database (databases in first-occurrence order)
and sort each group ascending, as Python `sorted` does. -/
def analyze_dependencies (errors : List MigrationError) :
    List (String × List String) :=
  let deps := errors.foldl (fun m e => addTable m e.database e.table) []
  deps.map (fun p => (p.1, p.2.insertionSort strLe))

/-- bumpCount embeds `error_counts[key] = error_counts.get(key, 0) + 1` on an
insertion-ordered association list (a Python dict keeps the position of
existing keys and appends new ones). -/
def bumpCount : List ((String × String) × Nat) → (String × String) →
    List ((String × String) × Nat)
  | [], k => [(k, 1)]
  | (j, c) :: rest, k =>
    if j = k then (j, c + 1) :: rest else (j, c) :: bumpCount rest k

/-- countsAux folds `bumpCount` over the error list, embedding the counting
loop of `_detect_corruption`. -/
def countsAux (acc : List ((String × String) × Nat)) :
    List MigrationError → List ((String × String) × Nat)
  | [] => acc
  | e :: es => countsAux (bumpCount acc (e.database, e.table)) es

/-- pyDigitRanges lists, as inclusive code-point ranges, exactly the
characters Python `str.isdigit` accepts: those with Unicode numeric type
Decimal or Digit.  This includes the ASCII digits and also non-ASCII digit
characters such as superscript two (code point 178).  Generated from the
Unicode data of the CPython interpreter the program runs under. -/
def pyDigitRanges : List (Nat × Nat) :=
  [(48, 57), (178, 179), (185, 185), (1632, 1641), (1776, 1785), (1984,
   1993), (2406, 2415), (2534, 2543), (2662, 2671), (2790, 2799), (2918,
   2927), (3046, 3055), (3174, 3183), (3302, 3311), (3430, 3439), (3558,
   3567), (3664, 3673), (3792, 3801), (3872, 3881), (4160, 4169), (4240,
   4249), (4969, 4977), (6112, 6121), (6160, 6169), (6470, 6479), (6608,
   6618), (6784, 6793), (6800, 6809), (6992, 7001), (7088, 7097), (7232,
   7241), (7248, 7257), (8304, 8304), (8308, 8313), (8320, 8329), (9312,
   9320), (9332, 9340), (9352, 9360), (9450, 9450), (9461, 9469), (9471,
   9471), (10102, 10110), (10112, 10120), (10122, 10130), (42528, 42537),
   (43216, 43225), (43264, 43273), (43472, 43481), (43504, 43513), (43600,
   43609), (44016, 44025), (65296, 65305), (66720, 66729), (68160, 68163),
   (68912, 68921), (69216, 69224), (69714, 69722), (69734, 69743), (69872,
   69881), (69942, 69951), (70096, 70105), (70384, 70393), (70736, 70745),
   (70864, 70873), (71248, 71257), (71360, 71369), (71472, 71481), (71904,
   71913), (72016, 72025), (72784, 72793), (73040, 73049), (73120, 73129),
   (92768, 92777), (92864, 92873), (93008, 93017), (120782, 120831),
   (123200, 123209), (123632, 123641), (125264, 125273), (127232, 127242),
   (130032, 130041)]

/-- pyIsDigit embeds Python `str.isdigit` on a single character: membership
in one of `pyDigitRanges`. -/
def pyIsDigit (c : Char) : Bool :=
  pyDigitRanges.any fun r => r.1 ≤ c.toNat && c.toNat ≤ r.2

/-- detectLoop embeds the final loop of `_detect_corruption`: for each
counted pair, when the count is at least 2 Python evaluates
`table[0].isdigit()`, which raises `IndexError` when the table name is empty;
a first character accepted by `str.isdigit` (see `pyIsDigit`) returns `True`,
otherwise the loop continues, and falling through returns `False`. -/
def detectLoop : List ((String × String) × Nat) → Except Unit Bool
  | [] => .ok false
  | ((_, t), c) :: rest =>
    if 2 ≤ c then
      match t.data with
      | [] => .error ()
      | ch :: _ => if pyIsDigit ch then .ok true else detectLoop rest
    else detectLoop rest

/-- detect_corruption embeds `MigrationHealer._detect_corruption`: any
database with 3 or more tables in `deps` returns `True`; otherwise the raw
(database, table) pairs are counted and, when some count reaches 2, the loop
over counts runs (possibly raising on an empty table name); otherwise
`False`. -/
def detect_corruption (errors : List MigrationError)
    (deps : List (String × List String)) : Except Unit Bool :=
  if deps.any (fun p => 3 ≤ p.2.length) then .ok true
  else
    let counts := countsAux [] errors
    if counts.any (fun pc => 2 ≤ pc.2) then detectLoop counts
    else .ok false

/-- HealAction embeds one entry of the `actions` list built by
`generate_heal_suggestions`. -/
structure HealAction where
  priority : Nat
  type : String
  command : String
  description : String
deriving DecidableEq

/-- HealSuggestions embeds the dictionary returned by
`generate_heal_suggestions`. -/
structure HealSuggestions where
  databases_affected : List String
  total_missing_tables : Nat
  actions : List HealAction
deriving DecidableEq

/-- checkStatusAction is the priority-1 suggestion appended per database. -/
def checkStatusAction (db : String) : HealAction :=
  { priority := 1
    type := "check_status"
    command := "migrate check " ++ db
    description := "Check migration status for " ++ db }

/-- healAction is the single priority-2 suggestion. -/
def healAction : HealAction :=
  { priority := 2
    type := "heal"
    command := "migrate heal"
    description := "Attempt to run pending migrations" }

/-- verifyAction is the priority-3 suggestion appended per (database, table)
pair. -/
def verifyAction (db t : String) : HealAction :=
  { priority := 3
    type := "verify"
    command := "check table " ++ db ++ "." ++ t
    description := "Verify if " ++ t ++ " actually exists in " ++ db }

/-- generate_heal_suggestions embeds `MigrationHealer.generate_heal_suggestions`,
with the three append loops of the source rendered as left folds. -/
def generate_heal_suggestions (deps : List (String × List String)) :
    HealSuggestions :=
  let a1 := deps.foldl (fun acc p => acc ++ [checkStatusAction p.1]) []
  let a2 := a1 ++ [healAction]
  let a3 := deps.foldl
    (fun acc p => (p.2.take 5).foldl (fun acc2 t => acc2 ++ [verifyAction p.1 t]) acc)
    a2
  { databases_affected := deps.map (fun p => p.1)
    total_missing_tables := (deps.map (fun p => p.2.length)).sum
    actions := a3 }

/-- mainExitCode embeds the exit-code behaviour of `main`, with reading the
input (stdin or file) abstracted into the `input` argument; `argv` is the
full `sys.argv` including the program name.  Fewer than two entries is a
usage error (exit 1).  In JSON mode nothing calls `sys.exit`, so the process
exits 0.  In prose mode with no errors the report returns early and the exit
code is 0; with errors, either `_detect_corruption` raises (an uncaught
Python exception terminates the process with exit code 1) or `sys.exit(1)`
runs — both give 1. -/
def mainExitCode (argv : List String) (input : String) : Nat :=
  if argv.length < 2 then 1
  else
    let errors := parse_migration_output input
    if "--json" ∈ argv then 0
    else if errors.isEmpty then 0
    else
      match detect_corruption errors (analyze_dependencies errors) with
      | .error _ => 1
      | .ok _ => 1

/-!
Specification-side definitions.  The following definitions are written from
the wording of the specification (not from the source) and are compared with
the embedded source functions in the theorems below.
-/

/-- pairCount counts the occurrences of the (database, table) pair `k` in the
raw, pre-deduplication record list, as Rule B of the specification words it. -/
def pairCount (errors : List MigrationError) (k : String × String) : Nat :=
  errors.countP (fun e => decide ((e.database, e.table) = k))

/-- firstCharAsciiDigit tests whether the first character of a table name is
an ASCII digit, as Rule B of the specification words it; an empty name has no
first character. -/
def firstCharAsciiDigit (t : String) : Bool :=
  match t.data with
  | [] => false
  | c :: _ => c.isDigit

/-- specRuleA is Rule A as the specification words it: some database in the
dependency map has 3 or more distinct table names. -/
def specRuleA (deps : List (String × List String)) : Bool :=
  deps.any fun p => 3 ≤ p.2.dedup.length

/-- specRuleB is Rule B as the specification words it: some (database, table)
pair occurs 2 or more times in the raw record list and that table name's
first character is an ASCII digit. -/
def specRuleB (errors : List MigrationError) : Bool :=
  errors.any fun e =>
    decide (2 ≤ pairCount errors (e.database, e.table)) && firstCharAsciiDigit e.table

/-- firstCharPyDigit tests whether the first character of a table name is a
digit for Python `str.isdigit`; an empty name has no first character.  This
is the test the source actually applies, wider than the specification's
ASCII-digit wording. -/
def firstCharPyDigit (t : String) : Bool :=
  match t.data with
  | [] => false
  | c :: _ => pyIsDigit c

/-- specRuleBPy is Rule B as the source implements it: some (database, table)
pair occurs 2 or more times in the raw record list and that table name's
first character is accepted by Python `str.isdigit`. -/
def specRuleBPy (errors : List MigrationError) : Bool :=
  errors.any fun e =>
    decide (2 ≤ pairCount errors (e.database, e.table)) && firstCharPyDigit e.table

/-- opPhrases lists the operation keywords in the fixed priority order the
specification gives: ALTER, then CREATE, then DROP. -/
def opPhrases : List (List Char × String) :=
  [(alterLit, "ALTER"), (createLit, "CREATE"), (dropLit, "DROP")]

/-- specOperation is the operation classification as the specification words
it: inspect the window from 200 characters before the match start through 100
characters after the match end, and assign the first phrase present in the
fixed priority order, defaulting to UNKNOWN. -/
def specOperation (out : List Char) (mstart mend : Nat) : String :=
  let window := pySlice out (mstart - 200) (mend + 100)
  ((opPhrases.filter (fun p => containsPhrase p.1 tableLit window)).headD
    ([], "UNKNOWN")).2

/-- cntOf looks a key up in an association list of counts, defaulting to 0
(first matching entry, as in a Python dict with distinct keys). -/
def cntOf : List ((String × String) × Nat) → (String × String) → Nat
  | [], _ => 0
  | (j, c) :: rest, k => if j = k then c else cntOf rest k

/-!
Concrete inputs used by the claim theorems, built with an explicit apostrophe
character `quoteC`.
-/

/-- qS is the one-character string holding an apostrophe. -/
def qS : String := ⟨[quoteC]⟩

/-- doesntS is the word of the error phrase that contains an apostrophe. -/
def doesntS : String := "doesn" ++ qS ++ "t"

/-- dedupQuotedInput holds the primary phrasing and the SQLSTATE phrasing of
the identical pair (acme, orders), with the identifier quoted in both. -/
def dedupQuotedInput : String :=
  "Table " ++ qS ++ "acme.orders" ++ qS ++ " " ++ doesntS ++
    " exist SQLSTATE[42S02]: Base table or view not found: 1146 Table " ++
    qS ++ "acme.orders" ++ qS ++ " " ++ doesntS ++ " exist"

/-- dedupUnquotedInput holds the primary phrasing and the SQLSTATE phrasing
of the identical pair (acme, orders), the latter with an unquoted
identifier. -/
def dedupUnquotedInput : String :=
  "Table " ++ qS ++ "acme.orders" ++ qS ++ " " ++ doesntS ++
    " exist SQLSTATE[42S02]: Base table or view not found: 1146 Table acme.orders " ++
    doesntS ++ " exist"

/-- emptyTableInput holds two primary-phrasing occurrences whose quoted table
component is a lone newline, which the whitespace collapse turns into the
empty table name. -/
def emptyTableInput : String :=
  "Table " ++ qS ++ "a.\n" ++ qS ++ " " ++ doesntS ++ " exist Table " ++
    qS ++ "a.\n" ++ qS ++ " " ++ doesntS ++ " exist"

/-- blankIdInput holds a primary-phrasing occurrence whose quoted identifier
components are single spaces, which collapse to empty strings. -/
def blankIdInput : String :=
  "Table " ++ qS ++ " . " ++ qS ++ " " ++ doesntS ++ " exist"

/-- splitIdInput is the specification's whitespace-robustness example, with
the identifier split by a line break. -/
def splitIdInput : String :=
  "Table " ++ qS ++ "acme.\n  orders" ++ qS ++ " " ++ doesntS ++ "\n exist"

/-- unsplitIdInput is the unsplit form of the same text. -/
def unsplitIdInput : String :=
  "Table " ++ qS ++ "acme.orders" ++ qS ++ " " ++ doesntS ++ " exist"

/-- bothOpsInput carries both CREATE TABLE and ALTER TABLE in the context
window of its single primary match. -/
def bothOpsInput : String :=
  "CREATE TABLE x ALTER TABLE y Table " ++ qS ++ "a.b" ++ qS ++ " " ++
    doesntS ++ " exist"

/-- multiDotInput carries the multi-dot identifier a.b.c in both dialects,
the SQLSTATE one unquoted. -/
def multiDotInput : String :=
  "Table " ++ qS ++ "a.b.c" ++ qS ++ " " ++ doesntS ++
    " exist SQLSTATE[42S02] x Table a.b.c " ++ doesntS ++ " exist"

/-- blankTableRecord is a record with an empty table name, as the extractor
produces for `emptyTableInput`. -/
def blankTableRecord : MigrationError :=
  { database := "a", table := "", operation := "UNKNOWN",
    error_type := "MISSING_TABLE", raw_error := "" }

/-- c1bad repeats a pair with an empty table name twice. -/
def c1bad : List MigrationError := [blankTableRecord, blankTableRecord]

/-- digitTableRecord is a record whose table name starts with an ASCII
digit. -/
def digitTableRecord : MigrationError :=
  { database := "a", table := "1t", operation := "UNKNOWN",
    error_type := "MISSING_TABLE", raw_error := "" }

/-- c1good repeats a digit-prefixed pair twice. -/
def c1good : List MigrationError := [digitTableRecord, digitTableRecord]

/-- uniTableRecord is a record whose table name starts with superscript two,
a non-ASCII character Python `str.isdigit` accepts. -/
def uniTableRecord : MigrationError :=
  { database := "a", table := "²x", operation := "UNKNOWN",
    error_type := "MISSING_TABLE", raw_error := "" }

/-- c1uni repeats the superscript-digit pair twice. -/
def c1uni : List MigrationError := [uniTableRecord, uniTableRecord]

/-- c6errs holds two records of one database with unsorted table names. -/
def c6errs : List MigrationError :=
  [{ database := "a", table := "t", operation := "UNKNOWN",
     error_type := "MISSING_TABLE", raw_error := "" },
   { database := "a", table := "s", operation := "UNKNOWN",
     error_type := "MISSING_TABLE", raw_error := "" }]

/-- w5out is a minimal primary-phrasing input for the operation-window
witness. -/
def w5out : List Char := ("Table " ++ qS ++ "a.b" ++ qS ++ " " ++ doesntS ++ " exist").data

/-- w5m is the single primary match of `w5out`. -/
def w5m : PrimMatch := ⟨['a'], ['b'], 0, 25⟩

/-- c4rec is the single record extracted from `unsplitIdInput`. -/
def c4rec : MigrationError :=
  { database := "acme", table := "orders", operation := "UNKNOWN",
    error_type := "MISSING_TABLE", raw_error := unsplitIdInput }

/-!
Theorems.
-/

/-- foldl_push rewrites the appending loop of the source as a map. -/
theorem foldl_push {α β : Type} (f : α → β) :
    ∀ (l : List α) (init : List β),
      l.foldl (fun acc x => acc ++ [f x]) init = init ++ l.map f
  | [], init => by simp
  | x :: l, init => by
    simp [foldl_push f l (init ++ [f x])]

/-- foldl_verify rewrites the nested verify-appending loops of
`generate_heal_suggestions` as a bind. -/
theorem foldl_verify :
    ∀ (deps : List (String × List String)) (init : List HealAction),
      deps.foldl
          (fun acc p => (p.2.take 5).foldl (fun a t => a ++ [verifyAction p.1 t]) acc)
          init
        = init ++ deps.bind (fun p => (p.2.take 5).map (verifyAction p.1))
  | [], init => by simp
  | p :: deps, init => by
    rw [List.foldl_cons, foldl_push (verifyAction p.1), foldl_verify deps]
    simp

/-- C9: for every dependency map, the actions list is the check_status
suggestions (priority 1, one per database in map order), then exactly one
heal suggestion (priority 2), then the verify suggestions (priority 3, one
per (database, table) pair with at most 5 tables per database, in map
order). -/
theorem C9_suggestion_actions (deps : List (String × List String)) :
    (generate_heal_suggestions deps).actions
      = deps.map (fun p => checkStatusAction p.1) ++ [healAction]
        ++ deps.bind (fun p => (p.2.take 5).map (verifyAction p.1)) := by
  show deps.foldl
      (fun acc p => (p.2.take 5).foldl (fun a t => a ++ [verifyAction p.1 t]) acc)
      (deps.foldl (fun acc x => acc ++ [checkStatusAction x.1]) [] ++ [healAction]) = _
  rw [foldl_verify, foldl_push]
  simp

/-- lexLe_total: any two character lists compare in one direction or the
other. -/
theorem lexLe_total : ∀ a b : List Char, lexLe a b = true ∨ lexLe b a = true := by
  intro a
  induction a with
  | nil => intro b; left; rfl
  | cons x xs ih =>
    intro b
    cases b with
    | nil => right; rfl
    | cons y ys =>
      by_cases hxy : x.toNat < y.toNat
      · left; simp [lexLe, hxy]
      · by_cases hyx : y.toNat < x.toNat
        · right; simp [lexLe, hyx]
        · rcases ih ys with h | h
          · left; simp [lexLe, hxy, hyx, h]
          · right; simp [lexLe, hxy, hyx, h]

/-- lexLe_trans: code-point lexicographic comparison is transitive. -/
theorem lexLe_trans :
    ∀ a b c : List Char, lexLe a b = true → lexLe b c = true → lexLe a c = true := by
  intro a
  induction a with
  | nil => intro b c _ _; rfl
  | cons x xs ih =>
    intro b c hab hbc
    cases b with
    | nil => simp [lexLe] at hab
    | cons y ys =>
      cases c with
      | nil => simp [lexLe] at hbc
      | cons z zs =>
        simp only [lexLe] at hab hbc ⊢
        by_cases hxz : x.toNat < z.toNat
        · rw [if_pos hxz]
        · by_cases hzx : z.toNat < x.toNat
          · exfalso
            by_cases hxy : x.toNat < y.toNat
            · rw [if_neg (by omega : ¬ y.toNat < z.toNat),
                if_pos (by omega : z.toNat < y.toNat)] at hbc
              exact Bool.false_ne_true hbc
            · by_cases hyx : y.toNat < x.toNat
              · rw [if_neg hxy, if_pos hyx] at hab
                exact Bool.false_ne_true hab
              · rw [if_neg (by omega : ¬ y.toNat < z.toNat),
                  if_pos (by omega : z.toNat < y.toNat)] at hbc
                exact Bool.false_ne_true hbc
          · rw [if_neg hxz, if_neg hzx]
            have hxy : ¬ x.toNat < y.toNat := by
              intro h
              rw [if_neg (by omega : ¬ y.toNat < z.toNat),
                if_pos (by omega : z.toNat < y.toNat)] at hbc
              exact Bool.false_ne_true hbc
            have hyx : ¬ y.toNat < x.toNat := by
              intro h
              rw [if_neg hxy, if_pos h] at hab
              exact Bool.false_ne_true hab
            rw [if_neg hxy, if_neg hyx] at hab
            rw [if_neg (by omega : ¬ y.toNat < z.toNat),
              if_neg (by omega : ¬ z.toNat < y.toNat)] at hbc
            exact ih ys zs hab hbc

instance : IsTotal String strLe := ⟨fun a b => lexLe_total a.data b.data⟩

instance : IsTrans String strLe := ⟨fun a b c => lexLe_trans a.data b.data c.data⟩

/-- addTable_nodup: one defaultdict(set) step keeps every table list
duplicate-free. -/
theorem addTable_nodup :
    ∀ (m : List (String × List String)) (db t : String),
      (∀ p ∈ m, p.2.Nodup) → ∀ p ∈ addTable m db t, p.2.Nodup := by
  intro m
  induction m with
  | nil =>
    intro db t _ p hp
    simp only [addTable, List.mem_singleton] at hp
    subst hp
    simp
  | cons hd tl ih =>
    intro db t h p hp
    obtain ⟨d, ts⟩ := hd
    simp only [addTable] at hp
    by_cases hdb : d = db
    · rw [if_pos hdb] at hp
      rcases List.mem_cons.mp hp with hp | hp
      · subst hp
        by_cases hts : t ∈ ts
        · simpa [hts] using h (d, ts) (List.mem_cons_self _ _)
        · have hnd : ts.Nodup := h (d, ts) (List.mem_cons_self _ _)
          simp only [hts, if_neg]
          exact hnd.append (List.nodup_singleton t)
            (fun a ha hb => hts ((List.mem_singleton.mp hb) ▸ ha))
      · exact h p (List.mem_cons_of_mem _ hp)
    · rw [if_neg hdb] at hp
      rcases List.mem_cons.mp hp with hp | hp
      · subst hp
        exact h (d, ts) (List.mem_cons_self _ _)
      · exact ih db t (fun q hq => h q (List.mem_cons_of_mem _ hq)) p hp

/-- foldl_addTable_nodup: the whole grouping fold keeps every table list
duplicate-free. -/
theorem foldl_addTable_nodup :
    ∀ (es : List MigrationError) (m : List (String × List String)),
      (∀ p ∈ m, p.2.Nodup) →
      ∀ p ∈ es.foldl (fun m e => addTable m e.database e.table) m, p.2.Nodup := by
  intro es
  induction es with
  | nil => intro m h p hp; exact h p hp
  | cons e es ih =>
    intro m h
    exact ih _ (addTable_nodup m e.database e.table h)

/-- analyze_tables_nodup: every table list produced by
`analyze_dependencies` is duplicate-free. -/
theorem analyze_tables_nodup (errors : List MigrationError) :
    ∀ p ∈ analyze_dependencies errors, p.2.Nodup := by
  intro p hp
  simp only [analyze_dependencies, List.mem_map] at hp
  obtain ⟨q, hq, rfl⟩ := hp
  have hnd := foldl_addTable_nodup errors [] (by simp) q hq
  exact ((List.perm_insertionSort _ q.2).nodup_iff).mpr hnd

/-- analyze_tables_sorted: every table list produced by
`analyze_dependencies` is sorted ascending. -/
theorem analyze_tables_sorted (errors : List MigrationError) :
    ∀ p ∈ analyze_dependencies errors, p.2.Sorted strLe := by
  intro p hp
  simp only [analyze_dependencies, List.mem_map] at hp
  obtain ⟨q, hq, rfl⟩ := hp
  exact List.sorted_insertionSort _ q.2

/-- C6: for every record list, every table list in the grouping is sorted
lexicographically ascending (code-point order, as Python `sorted` compares
strings) and contains each table name at most once. -/
theorem C6_group_sorted_nodup (errors : List MigrationError)
    (p : String × List String) (hp : p ∈ analyze_dependencies errors) :
    p.2.Sorted strLe ∧ p.2.Nodup :=
  ⟨analyze_tables_sorted errors p hp, analyze_tables_nodup errors p hp⟩

/-- C6 witness at a concrete record list whose tables arrive unsorted. -/
theorem C6_group_sorted_nodup_witness :
    (("a", ["s", "t"]) ∈ analyze_dependencies c6errs) ∧
      ((("a", ["s", "t"]) : String × List String).2.Sorted strLe ∧
        (("a", ["s", "t"]) : String × List String).2.Nodup) :=
  ⟨by decide, C6_group_sorted_nodup c6errs ("a", ["s", "t"]) (by decide)⟩

/-- anyCongr: pointwise equal predicates give equal `any`. -/
theorem anyCongr {α : Type} (l : List α) (f g : α → Bool)
    (h : ∀ a ∈ l, f a = g a) : l.any f = l.any g := by
  induction l with
  | nil => rfl
  | cons x xs ih =>
    simp only [List.any_cons]
    rw [h x (List.mem_cons_self _ _), ih (fun a ha => h a (List.mem_cons_of_mem _ ha))]

/-- cntOf_bumpCount: bumping a key increments exactly that key's count. -/
theorem cntOf_bumpCount (m : List ((String × String) × Nat)) (k j : String × String) :
    cntOf (bumpCount m k) j = if j = k then cntOf m k + 1 else cntOf m j := by
  induction m with
  | nil =>
    by_cases h : j = k
    · simp [bumpCount, cntOf, h]
    · simp [bumpCount, cntOf, h, Ne.symm h]
  | cons hd tl ih =>
    obtain ⟨jc, c⟩ := hd
    by_cases hj : jc = k
    · subst hj
      simp only [bumpCount, if_pos rfl]
      by_cases h : j = jc
      · simp [cntOf, h]
      · simp [cntOf, h, Ne.symm h]
    · simp only [bumpCount, if_neg hj, cntOf, ih]
      by_cases h2 : jc = j
      · subst h2
        simp [hj]
      · simp [h2, hj]

/-- pairCount_cons expands `pairCount` over a cons cell. -/
theorem pairCount_cons (e : MigrationError) (es : List MigrationError)
    (k : String × String) :
    pairCount (e :: es) k
      = pairCount es k + if (e.database, e.table) = k then 1 else 0 := by
  simp [pairCount, List.countP_cons]

/-- cntOf_countsAux: the association list built by the counting loop holds
exactly the pair counts of the record list (on top of the accumulator). -/
theorem cntOf_countsAux :
    ∀ (es : List MigrationError) (acc : List ((String × String) × Nat))
      (k : String × String),
      cntOf (countsAux acc es) k = cntOf acc k + pairCount es k := by
  intro es
  induction es with
  | nil => intro acc k; simp [countsAux, pairCount]
  | cons e es ih =>
    intro acc k
    rw [show countsAux acc (e :: es) = countsAux (bumpCount acc (e.database, e.table)) es
      from rfl]
    rw [ih, cntOf_bumpCount, pairCount_cons]
    by_cases h : k = (e.database, e.table)
    · rw [if_pos h, if_pos h.symm, h]
      omega
    · rw [if_neg h, if_neg (Ne.symm h)]
      omega

/-- keys_bumpCount: bumping appends the key when absent and keeps the key
list otherwise. -/
theorem keys_bumpCount (m : List ((String × String) × Nat)) (k : String × String) :
    (bumpCount m k).map Prod.fst
      = if k ∈ m.map Prod.fst then m.map Prod.fst else m.map Prod.fst ++ [k] := by
  induction m with
  | nil => simp [bumpCount]
  | cons hd tl ih =>
    obtain ⟨j, c⟩ := hd
    by_cases hj : j = k
    · subst hj
      simp [bumpCount]
    · simp only [bumpCount, if_neg hj, List.map_cons, ih]
      by_cases hk : k ∈ tl.map Prod.fst
      · simp [hk]
      · simp [hk, Ne.symm hj]

/-- keysNodup_bumpCount: bumping keeps the key list duplicate-free. -/
theorem keysNodup_bumpCount (m : List ((String × String) × Nat))
    (k : String × String) (h : (m.map Prod.fst).Nodup) :
    ((bumpCount m k).map Prod.fst).Nodup := by
  rw [keys_bumpCount]
  by_cases hk : k ∈ m.map Prod.fst
  · simpa [hk]
  · simp only [hk, if_neg, ite_false]
    exact h.append (List.nodup_singleton k)
      (fun a ha hb => hk ((List.mem_singleton.mp hb) ▸ ha))

/-- keysNodup_countsAux: the counting loop keeps the key list
duplicate-free. -/
theorem keysNodup_countsAux :
    ∀ (es : List MigrationError) (acc : List ((String × String) × Nat)),
      (acc.map Prod.fst).Nodup → ((countsAux acc es).map Prod.fst).Nodup := by
  intro es
  induction es with
  | nil => intro acc h; exact h
  | cons e es ih => intro acc h; exact ih _ (keysNodup_bumpCount acc _ h)

/-- pos_bumpCount: bumping keeps every stored count at least 1. -/
theorem pos_bumpCount (m : List ((String × String) × Nat)) (k : String × String)
    (h : ∀ pc ∈ m, 1 ≤ pc.2) : ∀ pc ∈ bumpCount m k, 1 ≤ pc.2 := by
  induction m with
  | nil =>
    intro pc hpc
    simp only [bumpCount, List.mem_singleton] at hpc
    subst hpc
    exact Nat.le_refl 1
  | cons hd tl ih =>
    obtain ⟨j, c⟩ := hd
    intro pc hpc
    simp only [bumpCount] at hpc
    by_cases hj : j = k
    · rw [if_pos hj] at hpc
      rcases List.mem_cons.mp hpc with hpc | hpc
      · subst hpc; exact Nat.le_add_left 1 c
      · exact h pc (List.mem_cons_of_mem _ hpc)
    · rw [if_neg hj] at hpc
      rcases List.mem_cons.mp hpc with hpc | hpc
      · subst hpc; exact h (j, c) (List.mem_cons_self _ _)
      · exact ih (fun q hq => h q (List.mem_cons_of_mem _ hq)) pc hpc

/-- pos_countsAux: the counting loop keeps every stored count at least 1. -/
theorem pos_countsAux :
    ∀ (es : List MigrationError) (acc : List ((String × String) × Nat)),
      (∀ pc ∈ acc, 1 ≤ pc.2) → ∀ pc ∈ countsAux acc es, 1 ≤ pc.2 := by
  intro es
  induction es with
  | nil => intro acc h; exact h
  | cons e es ih => intro acc h; exact ih _ (pos_bumpCount acc _ h)

/-- cntOf_of_mem: with duplicate-free keys, lookup of a stored entry returns
its stored count. -/
theorem cntOf_of_mem :
    ∀ (m : List ((String × String) × Nat)), (m.map Prod.fst).Nodup →
      ∀ (k : String × String) (c : Nat), (k, c) ∈ m → cntOf m k = c := by
  intro m
  induction m with
  | nil => intro _ k c hm; simp at hm
  | cons hd tl ih =>
    obtain ⟨j, d⟩ := hd
    intro hnd k c hm
    rcases List.mem_cons.mp hm with hm | hm
    · injection hm with h1 h2
      subst h1
      subst h2
      simp [cntOf]
    · simp only [cntOf]
      by_cases hj : j = k
      · exfalso
        have : k ∈ tl.map Prod.fst := List.mem_map_of_mem Prod.fst hm
        rw [← hj] at this
        exact (List.nodup_cons.mp (by simpa using hnd)).1 this
      · rw [if_neg hj]
        exact ih (List.nodup_cons.mp (by simpa using hnd)).2 k c hm

/-- cntOf_pos_mem: a positive lookup means the key is stored with that
count. -/
theorem cntOf_pos_mem :
    ∀ (m : List ((String × String) × Nat)) (k : String × String),
      0 < cntOf m k → (k, cntOf m k) ∈ m := by
  intro m
  induction m with
  | nil => intro k h; simp [cntOf] at h
  | cons hd tl ih =>
    obtain ⟨j, d⟩ := hd
    intro k h
    simp only [cntOf] at h ⊢
    by_cases hj : j = k
    · subst hj
      simp only [if_pos rfl] at h ⊢
      exact List.mem_cons_self _ _
    · rw [if_neg hj] at h ⊢
      exact List.mem_cons_of_mem _ (ih k h)

/-- dataNeNil: a string other than the empty string has a non-empty
character list. -/
theorem dataNeNil (t : String) (h : t ≠ "") : t.data ≠ [] := by
  intro hd
  exact h (String.ext (by rw [hd]))

/-- detectLoop_total: when no counted pair has an empty table name, the final
loop of `_detect_corruption` cannot raise and decides whether some pair with
count at least 2 has a table name whose first character passes
`str.isdigit`. -/
theorem detectLoop_total :
    ∀ (m : List ((String × String) × Nat)), (∀ pc ∈ m, pc.1.2 ≠ "") →
      detectLoop m
        = .ok (m.any fun pc => decide (2 ≤ pc.2) && firstCharPyDigit pc.1.2) := by
  intro m
  induction m with
  | nil => intro _; rfl
  | cons pc tl ih =>
    obtain ⟨⟨db, t⟩, c⟩ := pc
    intro h
    have ht : t.data ≠ [] := dataNeNil t (h ((db, t), c) (List.mem_cons_self _ _))
    obtain ⟨ch, rest, hdata⟩ : ∃ ch rest, t.data = ch :: rest := by
      cases hcd : t.data with
      | nil => exact absurd hcd ht
      | cons a b => exact ⟨a, b, rfl⟩
    simp only [detectLoop]
    by_cases h2 : 2 ≤ c
    · rw [if_pos h2, hdata]
      show (if pyIsDigit ch = true then Except.ok true else detectLoop tl) = _
      by_cases hd : pyIsDigit ch
      · rw [if_pos hd]
        simp [List.any_cons, firstCharPyDigit, hdata, hd, h2]
      · rw [if_neg hd]
        rw [ih (fun q hq => h q (List.mem_cons_of_mem _ hq))]
        simp [List.any_cons, firstCharPyDigit, hdata, hd]
    · rw [if_neg h2]
      rw [ih (fun q hq => h q (List.mem_cons_of_mem _ hq))]
      simp [List.any_cons, h2]

/-- C1 (amended): when every record's table name is non-empty,
`_detect_corruption` returns exactly the disjunction of Rule A (some database
in the derived dependency map has 3 or more distinct table names) and Rule B
as the source implements it (some raw (database, table) pair occurs twice or
more and its table name's first character passes Python `str.isdigit`, which
also accepts non-ASCII digit characters).  Without the non-emptiness
condition the Python code can raise instead of returning, and with the
specification's ASCII-digit wording of Rule B the equivalence fails on a
superscript-digit table name (see the counterexample for both). -/
theorem C1_detect_corruption_amended (errors : List MigrationError)
    (h : ∀ e ∈ errors, e.table ≠ "") :
    detect_corruption errors (analyze_dependencies errors)
      = .ok (specRuleA (analyze_dependencies errors) || specRuleBPy errors) := by
  have hA : ((analyze_dependencies errors).any fun p => decide (3 ≤ p.2.length))
      = specRuleA (analyze_dependencies errors) := by
    unfold specRuleA
    refine anyCongr _ _ _ (fun p hp => ?_)
    rw [List.dedup_eq_self.mpr (analyze_tables_nodup errors p hp)]
  have hcnt : ∀ k, cntOf (countsAux [] errors) k = pairCount errors k := by
    intro k
    have := cntOf_countsAux errors [] k
    simpa [cntOf] using this
  have hnodup : ((countsAux [] errors).map Prod.fst).Nodup :=
    keysNodup_countsAux errors [] (by simp)
  have hpos : ∀ pc ∈ countsAux [] errors, 1 ≤ pc.2 :=
    pos_countsAux errors [] (by simp)
  have hne : ∀ pc ∈ countsAux [] errors, pc.1.2 ≠ "" := by
    intro pc hpc
    have h1 : 1 ≤ pc.2 := hpos pc hpc
    have h2 : cntOf (countsAux [] errors) pc.1 = pc.2 :=
      cntOf_of_mem _ hnodup pc.1 pc.2 hpc
    have h3 : 0 < pairCount errors pc.1 := by rw [← hcnt pc.1, h2]; omega
    simp only [pairCount] at h3
    obtain ⟨e, he, hpe⟩ := List.countP_pos.mp h3
    have hpe' : (e.database, e.table) = pc.1 := of_decide_eq_true hpe
    have : e.table = pc.1.2 := congrArg Prod.snd hpe'
    rw [← this]
    exact h e he
  have hanyEq :
      ((countsAux [] errors).any fun pc => decide (2 ≤ pc.2) && firstCharPyDigit pc.1.2)
        = specRuleBPy errors := by
    rw [Bool.eq_iff_iff]
    simp only [List.any_eq_true, specRuleBPy, Bool.and_eq_true, decide_eq_true_eq]
    constructor
    · rintro ⟨pc, hpc, hge, hdig⟩
      have hc : cntOf (countsAux [] errors) pc.1 = pc.2 :=
        cntOf_of_mem _ hnodup pc.1 pc.2 hpc
      have hpcnt : 2 ≤ pairCount errors pc.1 := by rw [← hcnt pc.1, hc]; exact hge
      have h3 : 0 < pairCount errors pc.1 := by omega
      simp only [pairCount] at h3
      obtain ⟨e, he, hpe⟩ := List.countP_pos.mp h3
      have hpe' : (e.database, e.table) = pc.1 := of_decide_eq_true hpe
      refine ⟨e, he, ?_, ?_⟩
      · rw [hpe']
        exact hpcnt
      · have ht : e.table = pc.1.2 := congrArg Prod.snd hpe'
        rw [ht]
        exact hdig
    · rintro ⟨e, he, hge, hdig⟩
      have h0 : 0 < cntOf (countsAux [] errors) (e.database, e.table) := by
        rw [hcnt]
        omega
      refine ⟨((e.database, e.table), cntOf (countsAux [] errors) (e.database, e.table)),
        cntOf_pos_mem _ (e.database, e.table) h0, ?_, hdig⟩
      rw [hcnt]
      exact hge
  simp only [detect_corruption]
  rw [hA]
  by_cases hSA : specRuleA (analyze_dependencies errors) = true
  · rw [if_pos hSA, hSA]
    rfl
  · have hSA' : specRuleA (analyze_dependencies errors) = false :=
      Bool.eq_false_iff.mpr hSA
    rw [if_neg hSA, hSA']
    simp only [Bool.false_or]
    by_cases hg : ((countsAux [] errors).any fun pc => decide (2 ≤ pc.2)) = true
    · rw [if_pos hg, detectLoop_total _ hne, hanyEq]
    · rw [if_neg hg]
      have hfalse : specRuleBPy errors = false := by
        rw [← hanyEq]
        cases hx : ((countsAux [] errors).any
            fun pc => decide (2 ≤ pc.2) && firstCharPyDigit pc.1.2)
        · rfl
        · exfalso
          obtain ⟨pc, hpc, hb⟩ := List.any_eq_true.mp hx
          simp only [Bool.and_eq_true] at hb
          exact hg (List.any_eq_true.mpr ⟨pc, hpc, hb.1⟩)
      rw [hfalse]

/-- C1 counterexample, in two parts.  On two records repeating the pair
(a, "") with an empty table name, `_detect_corruption` raises IndexError
(embedded as `Except.error`) instead of returning false, although neither
Rule A nor the claimed ASCII-digit Rule B holds.  On two records repeating a
pair whose table name starts with superscript two, the program returns true
although Rule A is false and the table's first character is not an ASCII
digit: `str.isdigit` accepts it, so the claimed equivalence fails as
stated even on non-empty table names. -/
theorem C1_counterexample :
    (detect_corruption c1bad (analyze_dependencies c1bad) = .error ()
      ∧ specRuleA (analyze_dependencies c1bad) = false
      ∧ specRuleB c1bad = false)
    ∧ (detect_corruption c1uni (analyze_dependencies c1uni) = .ok true
      ∧ specRuleA (analyze_dependencies c1uni) = false
      ∧ specRuleB c1uni = false) :=
  ⟨⟨rfl, rfl, rfl⟩, ⟨rfl, rfl, rfl⟩⟩

/-- C1 witness: the amended theorem applied to a concrete duplicated
digit-prefixed pair. -/
theorem C1_detect_corruption_amended_witness :
    (∀ e ∈ c1good, e.table ≠ "") ∧
      detect_corruption c1good (analyze_dependencies c1good)
        = .ok (specRuleA (analyze_dependencies c1good) || specRuleBPy c1good) :=
  ⟨by decide, C1_detect_corruption_amended c1good (by decide)⟩

/-- secondaryRestAt_caps: a successful anchored secondary-tail match returns
captures drawn from their character classes (which exclude whitespace). -/
theorem secondaryRestAt_caps (u c1 c2 : List Char) (k : Nat)
    (h : secondaryRestAt u = some (c1, c2, k)) :
    (∀ c ∈ c1, secClass1 c = true) ∧ (∀ c ∈ c2, secClass2 c = true) := by
  simp only [secondaryRestAt, Option.bind_eq_some] at h
  obtain ⟨u1, _, h⟩ := h
  obtain ⟨u2, _, h⟩ := h
  split at h
  · split at h
    · exact absurd h (by simp)
    · split at h
      · exact absurd h (by simp)
      · simp only [Option.bind_eq_some] at h
        obtain ⟨u7, _, h⟩ := h
        obtain ⟨u8, _, h⟩ := h
        obtain ⟨u9, _, h⟩ := h
        obtain ⟨u10, _, h⟩ := h
        injection h with h
        injection h with ha h
        injection h with hb hk
        subst ha
        subst hb
        exact ⟨fun c hc => List.mem_takeWhile_imp hc,
          fun c hc => List.mem_takeWhile_imp hc⟩
  · exact absurd h (by simp)

/-- secondaryTailScan_caps: the lazy scan preserves the capture classes of
the underlying anchored match. -/
theorem secondaryTailScan_caps :
    ∀ (u c1 c2 : List Char) (k : Nat), secondaryTailScan u = some (c1, c2, k) →
      (∀ c ∈ c1, secClass1 c = true) ∧ (∀ c ∈ c2, secClass2 c = true) := by
  intro u
  induction u with
  | nil => intro c1 c2 k h; exact absurd h (by simp [secondaryTailScan])
  | cons x xs ih =>
    intro c1 c2 k h
    simp only [secondaryTailScan] at h
    split at h
    · rename_i r heq
      have hr : r = (c1, c2, k) := Option.some.inj h
      subst hr
      exact secondaryRestAt_caps (x :: xs) c1 c2 k heq
    · simp only [Option.map_eq_some'] at h
      obtain ⟨r, hr, hmap⟩ := h
      obtain ⟨rc1, rc2, rk⟩ := r
      injection hmap with h1 h2
      subst h1
      injection h2 with h2 h3
      subst h2
      exact ih rc1 rc2 rk hr

/-- secondaryScan_caps: every match the secondary finditer embedding emits
has captures drawn from the secondary character classes. -/
theorem secondaryScan_caps :
    ∀ (fuel : Nat) (rem : List Char) (pos : Nat) (m : SecMatch),
      m ∈ secondaryScan fuel rem pos →
      (∀ c ∈ m.cap1, secClass1 c = true) ∧ (∀ c ∈ m.cap2, secClass2 c = true) := by
  intro fuel
  induction fuel with
  | zero => intro rem pos m h; exact absurd h (by simp [secondaryScan])
  | succ fuel ih =>
    intro rem pos m h
    simp only [secondaryScan] at h
    split at h
    · split at h
      · rcases List.mem_cons.mp h with h | h
        · subst h
          exact secondaryTailScan_caps _ _ _ _ (by assumption)
        · exact ih _ _ m h
      · split at h
        · exact absurd h (by simp)
        · exact ih _ _ m h
    · split at h
      · exact absurd h (by simp)
      · exact ih _ _ m h

/-- pyStrip_subset: stripping only removes characters. -/
theorem pyStrip_subset (l : List Char) : ∀ c ∈ pyStrip l, c ∈ l := by
  intro c hc
  simp only [pyStrip, List.mem_reverse] at hc
  have h1 := ((List.dropWhile_sublist isPyWs).mem hc)
  rw [List.mem_reverse] at h1
  exact (List.dropWhile_sublist isPyWs).mem h1

/-- mem_addSecondary: every record appended by the secondary loop is built
from one of the secondary matches. -/
theorem mem_addSecondary (out : List Char) :
    ∀ (ms : List SecMatch) (seen : List (String × String)) (e : MigrationError),
      e ∈ addSecondary out seen ms → ∃ m ∈ ms, e = mkSecRecord out m := by
  intro ms
  induction ms with
  | nil => intro seen e he; exact absurd he (by simp [addSecondary])
  | cons m ms ih =>
    intro seen e he
    simp only [addSecondary] at he
    split at he
    · obtain ⟨m2, hm2, he2⟩ := ih _ e he
      exact ⟨m2, List.mem_cons_of_mem _ hm2, he2⟩
    · rcases List.mem_cons.mp he with he | he
      · exact ⟨m, List.mem_cons_self _ _, he⟩
      · obtain ⟨m2, hm2, he2⟩ := ih _ e he
        exact ⟨m2, List.mem_cons_of_mem _ hm2, he2⟩

/-- collapseWs_noWs: whitespace collapse leaves no whitespace characters. -/
theorem collapseWs_noWs (l : List Char) : ∀ c ∈ collapseWs l, isPyWs c = false := by
  intro c hc
  have h := (List.mem_filter.mp hc).2
  cases hw : isPyWs c
  · rfl
  · rw [hw] at h
    simp at h

/-- secClass1_noWs: the first secondary capture class excludes whitespace. -/
theorem secClass1_noWs (c : Char) (h : secClass1 c = true) : isPyWs c = false := by
  cases hw : isPyWs c
  · rfl
  · rw [secClass1, hw] at h
    simp at h

/-- secClass2_noWs: the second secondary capture class excludes whitespace. -/
theorem secClass2_noWs (c : Char) (h : secClass2 c = true) : isPyWs c = false := by
  cases hw : isPyWs c
  · rfl
  · rw [secClass2, hw] at h
    simp at h

/-- C4 counterexample: on a primary-phrasing input whose quoted identifier
components are all whitespace, the extractor emits a record whose database
and table are both empty, refuting the claimed non-emptiness. -/
theorem C4_counterexample :
    (parse_migration_output blankIdInput).map (fun e => (e.database, e.table))
      = [("", "")] := rfl

/-- C4 (amended): every record the extractor produces has a database and a
table containing no whitespace characters (they may be empty when the quoted
identifier components are all whitespace), an operation among CREATE, ALTER,
DROP, UNKNOWN, and error kind MISSING_TABLE. -/
theorem C4_amended_invariants (output : String) (e : MigrationError)
    (he : e ∈ parse_migration_output output) :
    (∀ c ∈ e.database.data, isPyWs c = false)
      ∧ (∀ c ∈ e.table.data, isPyWs c = false)
      ∧ e.operation ∈ (["CREATE", "ALTER", "DROP", "UNKNOWN"] : List String)
      ∧ e.error_type = "MISSING_TABLE" := by
  simp only [parse_migration_output] at he
  rcases List.mem_append.mp he with he | he
  · obtain ⟨m, hm, rfl⟩ := List.mem_map.mp he
    refine ⟨fun c hc => collapseWs_noWs m.cap1 c hc,
      fun c hc => collapseWs_noWs m.cap2 c hc, ?_, rfl⟩
    simp only [mkPrimRecord]
    split
    · simp
    · split
      · simp
      · split
        · simp
        · simp
  · obtain ⟨m, hm, rfl⟩ := mem_addSecondary _ _ _ _ he
    obtain ⟨hc1, hc2⟩ := secondaryScan_caps _ _ _ m hm
    exact ⟨fun c hc => secClass1_noWs c (hc1 c (pyStrip_subset m.cap1 c hc)),
      fun c hc => secClass2_noWs c (hc2 c (pyStrip_subset m.cap2 c hc)),
      by simp [mkSecRecord], rfl⟩

/-- C4 witness: the amended invariants at the concrete record extracted from
`unsplitIdInput`. -/
theorem C4_amended_invariants_witness :
    (c4rec ∈ parse_migration_output unsplitIdInput) ∧
      ((∀ c ∈ c4rec.database.data, isPyWs c = false)
        ∧ (∀ c ∈ c4rec.table.data, isPyWs c = false)
        ∧ c4rec.operation ∈ (["CREATE", "ALTER", "DROP", "UNKNOWN"] : List String)
        ∧ c4rec.error_type = "MISSING_TABLE") :=
  ⟨by
    rw [show parse_migration_output unsplitIdInput = [c4rec] from rfl]
    exact List.mem_singleton.mpr rfl,
   C4_amended_invariants unsplitIdInput c4rec (by
    rw [show parse_migration_output unsplitIdInput = [c4rec] from rfl]
    exact List.mem_singleton.mpr rfl)⟩

/-- C5: for every primary-pattern match, the record's operation equals the
specification-worded classification over the window from 200 characters
before the match start through 100 characters after the match end, first
phrase present in the priority order ALTER, CREATE, DROP winning; and on a
concrete input whose window holds both CREATE TABLE and ALTER TABLE the
single record classifies as ALTER. -/
theorem C5_operation_window :
    (∀ (out : List Char) (fuel pos : Nat) (m : PrimMatch),
        m ∈ primaryScan fuel out pos →
        (mkPrimRecord out m).operation = specOperation out m.mstart m.mend)
      ∧ (parse_migration_output bothOpsInput).map (fun e => e.operation) = ["ALTER"] := by
  constructor
  · intro out fuel pos m _
    simp only [mkPrimRecord, specOperation, opPhrases]
    by_cases h1 : containsPhrase alterLit tableLit
        (pySlice out (m.mstart - 200) (m.mend + 100)) = true
    · simp [h1, List.filter]
    · have h1f := Bool.eq_false_iff.mpr h1
      by_cases h2 : containsPhrase createLit tableLit
          (pySlice out (m.mstart - 200) (m.mend + 100)) = true
      · simp [h1f, h2, List.filter]
      · have h2f := Bool.eq_false_iff.mpr h2
        by_cases h3 : containsPhrase dropLit tableLit
            (pySlice out (m.mstart - 200) (m.mend + 100)) = true
        · simp [h1f, h2f, h3, List.filter]
        · have h3f := Bool.eq_false_iff.mpr h3
          simp [h1f, h2f, h3f, List.filter]
  · rfl

/-- C5 witness: the window refinement at the single match of a minimal
input. -/
theorem C5_operation_window_witness :
    (w5m ∈ primaryScan 26 w5out 0) ∧
      (mkPrimRecord w5out w5m).operation = specOperation w5out w5m.mstart w5m.mend :=
  ⟨by
    rw [show primaryScan 26 w5out 0 = [w5m] from rfl]
    exact List.mem_singleton.mpr rfl,
   C5_operation_window.1 w5out 26 0 w5m (by
    rw [show primaryScan 26 w5out 0 = [w5m] from rfl]
    exact List.mem_singleton.mpr rfl)⟩

/-- C8: the exit code is 1 on fewer than two argv entries (missing positional
argument), 0 in JSON mode, and in prose mode 0 exactly when no errors were
detected and 1 otherwise. -/
theorem C8_exit_codes (argv : List String) (input : String) :
    (argv.length < 2 → mainExitCode argv input = 1)
      ∧ (2 ≤ argv.length → "--json" ∈ argv → mainExitCode argv input = 0)
      ∧ (2 ≤ argv.length → "--json" ∉ argv →
          mainExitCode argv input
            = if parse_migration_output input = [] then 0 else 1) := by
  refine ⟨fun h => ?_, fun h hj => ?_, fun h hj => ?_⟩
  · simp [mainExitCode, h]
  · simp only [mainExitCode]
    rw [if_neg (by omega : ¬ argv.length < 2), if_pos hj]
  · simp only [mainExitCode]
    rw [if_neg (by omega : ¬ argv.length < 2), if_neg hj]
    cases herr : parse_migration_output input with
    | nil => simp
    | cons a as =>
      rw [if_neg (by simp)]
      rw [if_neg (by simp : ¬ (a :: as) = [])]
      cases hdet : detect_corruption (a :: as) (analyze_dependencies (a :: as)) with
      | error u => rfl
      | ok b => rfl

/-- C8 witness: a single-entry argv is a usage error with exit code 1. -/
theorem C8_exit_codes_witness :
    (["prog"] : List String).length < 2 ∧ mainExitCode ["prog"] "" = 1 :=
  ⟨by decide, (C8_exit_codes ["prog"] "").1 (by decide)⟩

/-- C2 counterexample: an input holding the primary phrasing and the quoted
SQLSTATE phrasing of the identical pair yields two records for that pair,
because the primary pattern also matches inside the SQLSTATE phrasing and
only secondary matches are deduplicated. -/
theorem C2_counterexample :
    (parse_migration_output dedupQuotedInput).map (fun e => (e.database, e.table))
      = [("acme", "orders"), ("acme", "orders")] := rfl

/-- C2 (amended): an input holding the primary phrasing and the SQLSTATE
phrasing with an unquoted identifier for the identical pair yields exactly
one record for that pair: the secondary match is deduplicated against the
primary one. -/
theorem C2_amended_dedup :
    (parse_migration_output dedupUnquotedInput).map (fun e => (e.database, e.table))
      = [("acme", "orders")] := rfl

/-- C3: the analysis pipeline is not exception-free: on an input whose quoted
table component is a lone newline repeated twice, extraction yields two
records with an empty table name and `_detect_corruption` then raises
IndexError (embedded as `Except.error`) evaluating `table[0]`. -/
theorem C3_pipeline_exception :
    (parse_migration_output emptyTableInput).map (fun e => (e.database, e.table))
        = [("a", ""), ("a", "")]
      ∧ detect_corruption (parse_migration_output emptyTableInput)
          (analyze_dependencies (parse_migration_output emptyTableInput))
        = .error () :=
  ⟨rfl, rfl⟩

/-- C7: the split-identifier input extracts to database acme and table
orders, identically to the unsplit form of the same text. -/
theorem C7_whitespace_invariance :
    (parse_migration_output splitIdInput).map
        (fun e => (e.database, e.table, e.operation, e.error_type))
      = [("acme", "orders", "UNKNOWN", "MISSING_TABLE")]
    ∧ (parse_migration_output unsplitIdInput).map
        (fun e => (e.database, e.table, e.operation, e.error_type))
      = [("acme", "orders", "UNKNOWN", "MISSING_TABLE")]
    ∧ (parse_migration_output splitIdInput).map
        (fun e => (e.database, e.table, e.operation, e.error_type))
      = (parse_migration_output unsplitIdInput).map
        (fun e => (e.database, e.table, e.operation, e.error_type)) :=
  ⟨rfl, rfl, rfl⟩

/-- C10: on an input carrying the multi-dot identifier a.b.c in both
dialects, the primary pattern splits it at the last dot and the secondary at
the first dot, so two records with different pairs survive deduplication. -/
theorem C10_multidot_split :
    (parse_migration_output multiDotInput).map (fun e => (e.database, e.table))
        = [("a.b", "c"), ("a", "b.c")]
      ∧ (("a.b", "c") : String × String) ≠ ("a", "b.c") :=
  ⟨rfl, by decide⟩
